import Mathlib

/-!
Verification of the connection-and-cache core of `wallet-standard-svelte`
(`src/lib/wallets.svelte.ts` and `src/lib/getWalletFeature.ts`).

Modelling conventions:
* JavaScript object identity is modelled by an allocation id (`Nat`) carried
  inside each structure; two values are "reference-equal" exactly when they are
  equal as Lean values, because distinct allocations receive distinct ids.
* JavaScript is single threaded: a burst of "concurrent" `connect()` calls is
  the sequential execution of each call's synchronous prefix (everything up to
  its first `await`), followed later by the settlement callbacks of the awaited
  promise.  `connectPrefix` is that synchronous prefix, `connectResume` is the
  code that runs when the awaited promise settles, and
  `WalletConnection.connect` composes the two into the whole call.
* The outcome with which a capability invocation's promise eventually settles
  is an explicit `Outcome` parameter (the provider decides it, not this code).
* The module-level `connectionPromises` WeakMap is a `PromiseTable`
  associating the wallet's object id to the pending operation's id.
-/

namespace WalletStandardSvelte

/-- A wallet account as returned by a connect capability (`{ address: ... }`). -/
structure Account where
  address : String
deriving Repr, DecidableEq

/-- A `Wallet` (Provider Handle) from the external registry: object identity,
display name, and which of the standard capabilities its `features` mapping
declares (`StandardConnect`, `StandardDisconnect`, `StandardEvents`). -/
structure Wallet where
  id : Nat
  name : String
  hasConnect : Bool
  hasDisconnect : Bool
  hasEvents : Bool
deriving Repr, DecidableEq

/-- Error causes are modelled by their message. -/
abbrev ErrVal := String

/-- The value with which an awaited capability promise settles: resolution with
a list of accounts, or rejection with a cause. -/
inductive Outcome where
  | ok (accounts : List Account)
  | err (e : ErrVal)
deriving Repr, DecidableEq

/-- The module-level `connectionPromises` WeakMap: wallet object id to the id
of the pending connect operation. -/
abbrev PromiseTable := List (Nat × Nat)

/-- WeakMap lookup (`connectionPromises.get`). -/
def lookupTable : PromiseTable → Nat → Option Nat
  | [], _ => none
  | (k', v) :: rest, k => if k' = k then some v else lookupTable rest k

/-- WeakMap update (`connectionPromises.set`). -/
def setTable : PromiseTable → Nat → Nat → PromiseTable
  | [], k, v => [(k, v)]
  | (k', v') :: rest, k, v =>
      if k' = k then (k, v) :: rest else (k', v') :: setTable rest k v

/-- WeakMap removal (`connectionPromises.delete`). -/
def deleteTable : PromiseTable → Nat → PromiseTable
  | [], _ => []
  | (k', v') :: rest, k => if k' = k then rest else (k', v') :: deleteTable rest k

/-- The reactive state of one `WalletConnection` instance. -/
structure WalletConnection where
  wallet : Option Wallet
  account : Option Account
  connecting : Bool
  connected : Bool
  error : Option ErrVal
deriving Repr, DecidableEq

/-- Initial `WalletConnection` state: all fields null / false. -/
def WalletConnection.init : WalletConnection :=
  { wallet := none, account := none, connecting := false, connected := false,
    error := none }

/-- How the synchronous prefix of `WalletConnection.connect` ends. -/
inductive PrefixOutcome where
  /-- `if (this.connecting) return`: the call completed with no effect. -/
  | earlyReturn
  /-- An entry was found in `connectionPromises`; the call awaits that
  operation instead of invoking the capability. -/
  | adopted (op : Nat)
  /-- The connect capability was invoked and the resulting promise was
  registered under the wallet's id; the call awaits operation `op`. -/
  | invoked (op : Nat)
  /-- `StandardConnect` is not in `wallet.features`: the call completed,
  ending in the idle state. -/
  | noCapability
deriving Repr, DecidableEq

/-- The synchronous prefix of `WalletConnection.connect(wallet)`: everything
the call executes before it first suspends (or before it returns, when it
never suspends).  `freshOp` is the id given to a newly created operation. -/
def connectPrefix (self : WalletConnection) (w : Wallet) (table : PromiseTable)
    (freshOp : Nat) : WalletConnection × PromiseTable × PrefixOutcome :=
  if self.connecting then (self, table, .earlyReturn)
  else
    let s := { self with connecting := true, error := none }
    match lookupTable table w.id with
    | some op => (s, table, .adopted op)
    | none =>
        if w.hasConnect then
          (s, setTable table w.id freshOp, .invoked freshOp)
        else
          ({ s with connecting := false }, table, .noCapability)

/-- The code a suspended `connect` call runs when the awaited promise settles:
on resolution the success assignments run (wallet, first account or null,
connected), on rejection the `catch` block stores the cause; either way the
`finally` block clears `connecting`.  The same assignments run whether the
call owned the promise (inside its `.then` callback) or adopted it (after the
`await existingPromise`). -/
def connectResume (s : WalletConnection) (w : Wallet) (outcome : Outcome) :
    WalletConnection :=
  match outcome with
  | .ok accounts =>
      { s with wallet := some w, account := accounts.head?, connected := true,
               connecting := false }
  | .err e => { s with error := some e, connecting := false }

/-- The `.finally(() => connectionPromises.delete(wallet))` cleanup attached to
a registered connect operation: runs when the operation settles, success or
failure. -/
def settleTable (table : PromiseTable) (walletId : Nat) : PromiseTable :=
  deleteTable table walletId

/-- The complete result of one `WalletConnection.connect` call. -/
structure ConnectResult where
  state : WalletConnection
  table : PromiseTable
  /-- how many times this call invoked the wallet's connect capability -/
  invocations : Nat
  /-- the rejection the returned promise propagates to the caller
  (`none` = the promise returned by `connect` resolves) -/
  thrown : Option ErrVal
deriving Repr, DecidableEq

/-- One `WalletConnection.connect(wallet)` call run to completion in isolation:
the synchronous prefix, then (when the call suspended) the settlement of the
awaited operation with `outcome` followed by the resumption.  When the call
suspended, the awaited operation's `finally` cleanup has removed the table
entry by the time the call completes.  `thrown` is `none` on every path: the
`catch` block stores the error without re-throwing. -/
def WalletConnection.connect (self : WalletConnection) (w : Wallet)
    (table : PromiseTable) (freshOp : Nat) (outcome : Outcome) : ConnectResult :=
  match connectPrefix self w table freshOp with
  | (s, t, .earlyReturn) => ⟨s, t, 0, none⟩
  | (s, t, .noCapability) => ⟨s, t, 0, none⟩
  | (s, t, .adopted _) => ⟨connectResume s w outcome, settleTable t w.id, 0, none⟩
  | (s, t, .invoked _) => ⟨connectResume s w outcome, settleTable t w.id, 1, none⟩

/-- The result of one `WalletConnection.disconnect` call. -/
structure DisconnectResult where
  state : WalletConnection
  /-- the rejection propagated to the caller (`none` = resolves) -/
  thrown : Option ErrVal
deriving Repr, DecidableEq

/-- The `try` block of `WalletConnection.disconnect`: when the wallet declares
`StandardDisconnect`, the capability is invoked and awaited (`failure` is
`some e` when that invocation rejects); afterwards, still inside the `try`,
the four clearing assignments run. -/
def disconnectTry (self : WalletConnection) (w : Wallet)
    (failure : Option ErrVal) : Except ErrVal WalletConnection :=
  if w.hasDisconnect then
    match failure with
    | some e => .error e
    | none =>
        .ok { self with wallet := none, account := none, connected := false,
                        error := none }
  else
    .ok { self with wallet := none, account := none, connected := false,
                    error := none }

/-- `WalletConnection.disconnect()`: no-op when no wallet is connected;
otherwise runs the `try` block, and the `catch` block stores a rejection
cause without re-throwing (so `thrown` is `none` on every path). -/
def WalletConnection.disconnect (self : WalletConnection)
    (failure : Option ErrVal) : DisconnectResult :=
  match self.wallet with
  | none => ⟨self, none⟩
  | some w =>
      match disconnectTry self w failure with
      | .ok s => ⟨s, none⟩
      | .error e => ⟨{ self with error := some e }, none⟩

/-- A burst of concurrent `connect(w)` calls: each controller in the list runs
the synchronous prefix of its call, in order, before any of the created
operations settles (fresh operation ids are drawn from `freshOp` upward).
Returns each call's prefix outcome and the final table. -/
def runPrefixes : List WalletConnection → Wallet → PromiseTable → Nat →
    List PrefixOutcome × PromiseTable
  | [], _, t, _ => ([], t)
  | c :: cs, w, t, freshOp =>
      match connectPrefix c w t freshOp with
      | (_, t', o) =>
          match runPrefixes cs w t' (freshOp + 1) with
          | (os, t'') => (o :: os, t'')

/-- Number of capability invocations performed by a burst of prefixes. -/
def countInvoked : List PrefixOutcome → Nat
  | [] => 0
  | .invoked _ :: os => countInvoked os + 1
  | _ :: os => countInvoked os

/-- A JavaScript array with its object identity: `ref` is the allocation id,
`elems` the contents. -/
structure ArrRef where
  ref : Nat
  elems : List Wallet
deriving Repr, DecidableEq

/-- The reactive state of a `WalletsStore`: the `wallets` array, the ids of
the wallets currently holding a `StandardEvents` "change" subscription
(`eventDisposers`), and the store's array-allocation counter. -/
structure WalletsStore where
  wallets : ArrRef
  changeSubs : List Nat
  nextRef : Nat
deriving Repr, DecidableEq

/-- `setupEventListeners`: disposes the previous per-wallet listeners and
subscribes to the `change` event of every wallet whose `features` declare
`StandardEvents`. -/
def setupEventListeners (s : WalletsStore) : WalletsStore :=
  { s with changeSubs := (s.wallets.elems.filter (fun w => w.hasEvents)).map (fun w => w.id) }

/-- The `WalletsStore` constructor: synchronously reads the registry's current
snapshot into `wallets`, registers the two registry listeners, and sets up the
per-wallet listeners.  `startRef` seeds the allocation counter above every
live array. -/
def WalletsStore.new (snapshot : List Wallet) (startRef : Nat) : WalletsStore :=
  setupEventListeners
    { wallets := ⟨startRef, snapshot⟩, changeSubs := [], nextRef := startRef + 1 }

/-- A registry membership notification together with the snapshot the
registry's `get()` returns from that moment on (the callbacks carry no
payload; the store re-reads `get()`). -/
inductive RegistryEvent where
  | registered (snapshot : List Wallet)
  | unregistered (snapshot : List Wallet)
deriving Repr, DecidableEq

/-- The snapshot `get()` returns after the event. -/
def RegistryEvent.snap : RegistryEvent → List Wallet
  | .registered s => s
  | .unregistered s => s

/-- The `register` / `unregister` callbacks: both re-read the full snapshot
(`this.wallets = get()`) and re-run `setupEventListeners`, regardless of the
event kind — a full re-read, not an incremental patch. -/
def handleRegistryEvent (s : WalletsStore) (e : RegistryEvent) : WalletsStore :=
  setupEventListeners
    { s with wallets := ⟨s.nextRef, e.snap⟩, nextRef := s.nextRef + 1 }

/-- Delivery of a sequence of registry events to the store, in order. -/
def processEvents (s : WalletsStore) : List RegistryEvent → WalletsStore
  | [] => s
  | e :: es => processEvents (handleRegistryEvent s e) es

/-- What the registry's `get()` currently returns after the events: the last
event's snapshot, or the initial snapshot when no event occurred. -/
def currentSnapshot (snapshot : List Wallet) : List RegistryEvent → List Wallet
  | [] => snapshot
  | e :: es => currentSnapshot e.snap es

/-- The per-wallet `change` callback: `this.wallets = [...this.wallets]` —
allocates a fresh array holding the same elements in the same order. -/
def handleChange (s : WalletsStore) : WalletsStore :=
  { s with wallets := ⟨s.nextRef, s.wallets.elems⟩, nextRef := s.nextRef + 1 }

/-- Allocator soundness for a `WalletsStore`: the live `wallets` array was
allocated below the counter, so the next allocation is a genuinely new
object. -/
def StoreWf (s : WalletsStore) : Prop :=
  s.wallets.ref < s.nextRef

instance (s : WalletsStore) : Decidable (StoreWf s) := by
  unfold StoreWf; infer_instance

/-- A `UiWallet` (Public Handle): object identity, name, and the list of
supported capability names. -/
structure UiWallet where
  ref : Nat
  name : String
  featureNames : List String
deriving Repr, DecidableEq

/-- Modelled from the spec: the `@wallet-standard/ui-registry` cache behind
`getOrCreateUiWalletForStandardWallet_DO_NOT_USE_OR_YOU_WILL_BE_FIRED` (the
package itself is not part of this repository).  Per §4.2 it maps a
provider-native handle to exactly one Public Handle, created lazily on first
observation and reused thereafter.  `entries` associates the wallet's object
id to its cached Public Handle; `nextRef` allocates fresh handle ids. -/
structure UiRegistryCache where
  entries : List (Nat × UiWallet)
  nextRef : Nat
deriving Repr, DecidableEq

/-- Cache lookup by wallet object id. -/
def lookupCache : List (Nat × UiWallet) → Nat → Option UiWallet
  | [], _ => none
  | (k, u) :: rest, k' => if k = k' then some u else lookupCache rest k'

/-- The capability names a wallet's `features` mapping declares. -/
def featureNamesOf (w : Wallet) : List String :=
  (if w.hasConnect then ["standard:connect"] else []) ++
    (if w.hasDisconnect then ["standard:disconnect"] else []) ++
      (if w.hasEvents then ["standard:events"] else [])

/-- Modelled from the spec:
`getOrCreateUiWalletForStandardWallet_DO_NOT_USE_OR_YOU_WILL_BE_FIRED`
(implemented in the external `@wallet-standard/ui-registry` package) —
"returns an existing cached Public Handle if one exists for the exact given
Provider Handle reference, else constructs, caches, and returns a new one"
(§4.2). -/
def getOrCreateUiWallet (c : UiRegistryCache) (w : Wallet) :
    UiWallet × UiRegistryCache :=
  match lookupCache c.entries w.id with
  | some u => (u, c)
  | none =>
      let u : UiWallet := ⟨c.nextRef, w.name, featureNamesOf w⟩
      (u, ⟨(w.id, u) :: c.entries, c.nextRef + 1⟩)

/-- A sequence of other derivations run against the cache (any interleaving
of lookups for arbitrary wallets). -/
def deriveAll (c : UiRegistryCache) : List Wallet → UiRegistryCache
  | [] => c
  | w :: ws => deriveAll (getOrCreateUiWallet c w).2 ws

/-- The reactive state of one `UiWalletConnect` instance. -/
structure UiWalletConnect where
  uiWallet : UiWallet
  connecting : Bool
  error : Option ErrVal
  connectionPromise : Option Nat
deriving Repr, DecidableEq

/-- The `UiWalletConnect` constructor. -/
def UiWalletConnect.new (u : UiWallet) : UiWalletConnect :=
  { uiWallet := u, connecting := false, error := none, connectionPromise := none }

/-- How the synchronous part of `UiWalletConnect.connect` ends. -/
inductive UiConnectStart where
  /-- an in-flight `connectionPromise` existed and was returned unchanged -/
  | pending (op : Nat)
  /-- the call threw, rejecting the returned promise with the cause -/
  | rejected (e : ErrVal)
  /-- the connect capability of the re-resolved wallet was invoked and the
  resulting promise stored in `connectionPromise` -/
  | invoked (w : Wallet) (op : Nat)
deriving Repr, DecidableEq

/-- The message of the error thrown when the registry's current snapshot has
no provider matching the held handle's name. -/
def notFoundMsg (n : String) : ErrVal :=
  s!"Wallet \"{n}\" not found in global registry"

/-- The synchronous part of `UiWalletConnect.connect()`: return any in-flight
promise; otherwise re-resolve the held `UiWallet` against the registry's
current snapshot by name (`globalWallets.find(w => w.name === ...)`), throw
the "not found in global registry" error when no current provider matches,
and otherwise invoke the connect capability of the fresh handle and store the
resulting promise.  When the matched wallet does not declare the connect
capability, `getWalletFeature` itself throws (modelled from the spec §4.2:
`CapabilityNotFound`); that throw escapes before `connectionPromise` is set. -/
def UiWalletConnect.connectStart (self : UiWalletConnect)
    (snapshot : List Wallet) (freshOp : Nat) :
    UiWalletConnect × UiConnectStart :=
  match self.connectionPromise with
  | some op => (self, .pending op)
  | none =>
      let s := { self with connecting := true, error := none }
      let n := self.uiWallet.name
      match snapshot.find? (fun w => w.name == n) with
      | none =>
          let e : ErrVal := notFoundMsg n
          ({ s with connecting := false, error := some e }, .rejected e)
      | some w =>
          if w.hasConnect then
            ({ s with connectionPromise := some freshOp }, .invoked w freshOp)
          else
            (s, .rejected "CapabilityNotFound")

/-- The settlement callbacks of the promise registered by
`UiWalletConnect.connect`: on resolution the `.then` step maps the accounts to
their public representations (derivation is the external registry's job and is
left untouched here); on rejection the `.catch` step stores the cause and
re-throws, so the caller's promise rejects; either way the `.finally` step
clears `connecting` and `connectionPromise`. -/
def UiWalletConnect.settle (self : UiWalletConnect) (outcome : Outcome) :
    UiWalletConnect × Except ErrVal (List Account) :=
  match outcome with
  | .ok accounts =>
      ({ self with connecting := false, connectionPromise := none }, .ok accounts)
  | .err e =>
      ({ self with error := some e, connecting := false,
                   connectionPromise := none }, .error e)

/-- The state invariant of a `WalletConnection`: `connected` is `true` exactly
when `wallet` is non-null, and `account` can be non-null only when `wallet`
is. -/
def ConnInv (s : WalletConnection) : Prop :=
  s.connected = s.wallet.isSome ∧ (s.account.isSome = true → s.wallet.isSome = true)

instance (s : WalletConnection) : Decidable (ConnInv s) := by
  unfold ConnInv; infer_instance

/-- A sample provider handle with every standard capability, for concrete
scenarios. -/
def acme : Wallet :=
  { id := 0, name := "Acme", hasConnect := true, hasDisconnect := true,
    hasEvents := true }

/-- A sample provider handle with an empty `features` mapping. -/
def basicWallet : Wallet :=
  { id := 1, name := "Basic Wallet", hasConnect := false, hasDisconnect := false,
    hasEvents := false }

/-- A sample account. -/
def acct : Account := { address := "0xAB" }

/-- A sample state of a controller connected to `acme`. -/
def connectedToAcme : WalletConnection :=
  { wallet := some acme, account := some acct, connecting := false,
    connected := true, error := none }

/-! Table lemmas shared by the connection theorems. -/

theorem lookupTable_setTable_self (t : PromiseTable) (k v : Nat) :
    lookupTable (setTable t k v) k = some v := by
  induction t with
  | nil => simp [setTable, lookupTable]
  | cons p rest ih =>
      obtain ⟨k', v'⟩ := p
      by_cases h : k' = k
      · subst h; simp [setTable, lookupTable]
      · simp [setTable, lookupTable, h, ih]

theorem deleteTable_setTable_of_absent (t : PromiseTable) (k v : Nat)
    (h : lookupTable t k = none) : deleteTable (setTable t k v) k = t := by
  induction t with
  | nil => simp [setTable, deleteTable]
  | cons p rest ih =>
      obtain ⟨k', v'⟩ := p
      by_cases hk : k' = k
      · subst hk; simp [lookupTable] at h
      · simp [lookupTable, hk] at h
        simp [setTable, hk, deleteTable, ih h]

/-! The Provider Collection (`WalletsStore`). -/

theorem processEvents_elems (s : WalletsStore) (events : List RegistryEvent) :
    (processEvents s events).wallets.elems =
      currentSnapshot s.wallets.elems events := by
  induction events generalizing s with
  | nil => simp [processEvents, currentSnapshot]
  | cons e es ih =>
      simp [processEvents, currentSnapshot, ih, handleRegistryEvent,
        setupEventListeners]

/-- C7: for every sequence of registry "registered"/"unregistered" events, the
Provider Collection's `wallets` sequence equals the registry's current
snapshot (`get()`) immediately after each event — each event triggers a full
re-read — and on construction the collection synchronously populates from the
current snapshot. -/
theorem walletsStore_matches_registry (snapshot : List Wallet) (startRef : Nat)
    (s : WalletsStore) (events : List RegistryEvent) :
    (WalletsStore.new snapshot startRef).wallets.elems = snapshot ∧
    (processEvents s events).wallets.elems =
      currentSnapshot s.wallets.elems events := by
  exact ⟨by simp [WalletsStore.new, setupEventListeners],
    processEvents_elems s events⟩

/-- C8: for a well-formed store, a provider exposing the events capability
holds a "change" subscription, and receipt of its notification replaces the
exposed array with a freshly allocated array (different reference) holding
exactly the same elements in the same order. -/
theorem changed_notification_replaces_array (s : WalletsStore) (w : Wallet)
    (hwf : StoreWf s)
    (hmem : w ∈ s.wallets.elems) (hev : w.hasEvents = true)
    (hsub : s.changeSubs =
      (s.wallets.elems.filter (fun x => x.hasEvents)).map (fun x => x.id)) :
    w.id ∈ s.changeSubs ∧
    (handleChange s).wallets.ref ≠ s.wallets.ref ∧
    (handleChange s).wallets.elems = s.wallets.elems ∧
    StoreWf (handleChange s) := by
  refine ⟨?_, ?_, rfl, ?_⟩
  · rw [hsub]
    exact List.mem_map.mpr ⟨w, List.mem_filter.mpr ⟨hmem, hev⟩, rfl⟩
  · have : s.wallets.ref < s.nextRef := hwf
    simpa [handleChange] using Nat.ne_of_gt this
  · simp only [StoreWf, handleChange]
    omega

/-- C8 witness. -/
theorem changed_notification_replaces_array_witness :
    acme.id ∈ (WalletsStore.new [acme, basicWallet] 10).changeSubs ∧
    (handleChange (WalletsStore.new [acme, basicWallet] 10)).wallets.ref ≠
      (WalletsStore.new [acme, basicWallet] 10).wallets.ref ∧
    (handleChange (WalletsStore.new [acme, basicWallet] 10)).wallets.elems =
      (WalletsStore.new [acme, basicWallet] 10).wallets.elems ∧
    StoreWf (handleChange (WalletsStore.new [acme, basicWallet] 10)) :=
  changed_notification_replaces_array (WalletsStore.new [acme, basicWallet] 10)
    acme (by decide) (by decide) (by decide) (by decide)

/-! The Identity Cache (modelled from the spec, §4.2). -/

theorem getOrCreate_of_cached (c : UiRegistryCache) (w : Wallet) (u : UiWallet)
    (h : lookupCache c.entries w.id = some u) :
    getOrCreateUiWallet c w = (u, c) := by
  unfold getOrCreateUiWallet
  rw [h]

theorem lookupCache_getOrCreate_self (c : UiRegistryCache) (w : Wallet) :
    lookupCache (getOrCreateUiWallet c w).2.entries w.id =
      some (getOrCreateUiWallet c w).1 := by
  unfold getOrCreateUiWallet
  cases h : lookupCache c.entries w.id with
  | some u => simp [h]
  | none => simp [h, lookupCache]

theorem lookupCache_getOrCreate_preserved (c : UiRegistryCache) (w' : Wallet)
    (k : Nat) (u : UiWallet) (h : lookupCache c.entries k = some u) :
    lookupCache (getOrCreateUiWallet c w').2.entries k = some u := by
  unfold getOrCreateUiWallet
  cases hl : lookupCache c.entries w'.id with
  | some u' => simpa [hl] using h
  | none =>
      by_cases hk : w'.id = k
      · subst hk; rw [h] at hl; cases hl
      · simpa [hl, lookupCache, hk] using h

theorem lookupCache_deriveAll_preserved (ws : List Wallet)
    (c : UiRegistryCache) (k : Nat) (u : UiWallet)
    (h : lookupCache c.entries k = some u) :
    lookupCache (deriveAll c ws).entries k = some u := by
  induction ws generalizing c with
  | nil => simpa [deriveAll] using h
  | cons w' rest ih =>
      exact ih _ (lookupCache_getOrCreate_preserved c w' k u h)

/-- C9: deriving a Public Handle from a given Provider Handle instance,
repeating the derivation after any interleaving of other derivations, returns
the identical (reference-equal) Public Handle obtained the first time and
leaves the cache unchanged: derivation is identity-stable and idempotent per
provider-handle instance. -/
theorem uiWallet_derivation_identity_stable (c : UiRegistryCache) (w : Wallet)
    (ws : List Wallet) :
    getOrCreateUiWallet (deriveAll (getOrCreateUiWallet c w).2 ws) w =
      ((getOrCreateUiWallet c w).1, deriveAll (getOrCreateUiWallet c w).2 ws) := by
  have h1 := lookupCache_getOrCreate_self c w
  have h2 := lookupCache_deriveAll_preserved ws (getOrCreateUiWallet c w).2 w.id
    (getOrCreateUiWallet c w).1 h1
  exact getOrCreate_of_cached _ w _ h2

/-! The Connection Controller (`WalletConnection`). -/

theorem runPrefixes_all_adopt (cs : List WalletConnection) (w : Wallet)
    (t : PromiseTable) (op n : Nat)
    (hidle : ∀ c ∈ cs, c.connecting = false)
    (hfound : lookupTable t w.id = some op) :
    runPrefixes cs w t n = (cs.map (fun _ => PrefixOutcome.adopted op), t) := by
  induction cs generalizing n with
  | nil => simp [runPrefixes]
  | cons c rest ih =>
      have hc : c.connecting = false := hidle c (by simp)
      have hrest : ∀ c ∈ rest, c.connecting = false :=
        fun c hcmem => hidle c (by simp [hcmem])
      simp [runPrefixes, connectPrefix, hc, hfound, ih (n + 1) hrest]

theorem countInvoked_replicate_adopted (n op : Nat) :
    countInvoked (List.replicate n (PrefixOutcome.adopted op)) = 0 := by
  induction n with
  | zero => rfl
  | succ k ih => simpa [List.replicate, countInvoked] using ih

theorem countInvoked_map_adopted (cs : List WalletConnection) (op : Nat) :
    countInvoked (cs.map (fun _ => PrefixOutcome.adopted op)) = 0 := by
  induction cs with
  | nil => rfl
  | cons c rest ih => simpa [countInvoked] using ih

/-- C2: when N controllers, all idle, issue `connect(w)` concurrently (all
synchronous prefixes run before the operation settles) with no in-flight
entry for `w`, the connect capability is invoked exactly once — the first
caller invokes and registers operation `freshOp`, every later caller adopts
that same pending operation from the shared table — the entry is still
present after all N calls started, and the settlement cleanup is what removes
it. -/
theorem connect_single_flight (c0 : WalletConnection)
    (cs : List WalletConnection) (w : Wallet) (t : PromiseTable) (freshOp : Nat)
    (hidle : ∀ c ∈ c0 :: cs, c.connecting = false)
    (habsent : lookupTable t w.id = none)
    (hcap : w.hasConnect = true) :
    countInvoked (runPrefixes (c0 :: cs) w t freshOp).1 = 1 ∧
    (runPrefixes (c0 :: cs) w t freshOp).1 =
      PrefixOutcome.invoked freshOp ::
        cs.map (fun _ => PrefixOutcome.adopted freshOp) ∧
    lookupTable (runPrefixes (c0 :: cs) w t freshOp).2 w.id = some freshOp ∧
    lookupTable (settleTable (runPrefixes (c0 :: cs) w t freshOp).2 w.id) w.id
      = none := by
  have hc0 : c0.connecting = false := hidle c0 (by simp)
  have hrest : ∀ c ∈ cs, c.connecting = false :=
    fun c hcmem => hidle c (by simp [hcmem])
  have hfound : lookupTable (setTable t w.id freshOp) w.id = some freshOp :=
    lookupTable_setTable_self t w.id freshOp
  have hrun : runPrefixes (c0 :: cs) w t freshOp =
      (PrefixOutcome.invoked freshOp ::
        cs.map (fun _ => PrefixOutcome.adopted freshOp),
       setTable t w.id freshOp) := by
    simp [runPrefixes, connectPrefix, hc0, habsent, hcap,
      runPrefixes_all_adopt cs w _ freshOp (freshOp + 1) hrest hfound]
  refine ⟨?_, ?_, ?_, ?_⟩
  · rw [hrun]
    simp [countInvoked, countInvoked_map_adopted, countInvoked_replicate_adopted]
  · rw [hrun]
  · rw [hrun]
    exact hfound
  · rw [hrun]
    simp [settleTable, deleteTable_setTable_of_absent t w.id freshOp habsent,
      habsent]

/-- C2 witness: two idle controllers connecting to `acme` concurrently. -/
theorem connect_single_flight_witness :
    countInvoked
        (runPrefixes [WalletConnection.init, WalletConnection.init] acme [] 7).1
      = 1 ∧
    (runPrefixes [WalletConnection.init, WalletConnection.init] acme [] 7).1 =
      [PrefixOutcome.invoked 7, PrefixOutcome.adopted 7] ∧
    lookupTable
        (runPrefixes [WalletConnection.init, WalletConnection.init] acme [] 7).2
        acme.id = some 7 ∧
    lookupTable
        (settleTable
          (runPrefixes [WalletConnection.init, WalletConnection.init] acme [] 7).2
          acme.id) acme.id = none := by
  have h := connect_single_flight WalletConnection.init [WalletConnection.init]
    acme [] 7 (by decide) (by decide) (by decide)
  simpa using h

/-- C3: a `connect()` call that reaches the capability invocation (idle
controller, no in-flight entry, capability declared) invokes it once; on
resolution the state becomes Connected with the resolved wallet and the first
returned account (or null when the result lists no accounts), and on
rejection the state becomes Error with the captured cause while the wallet
and account fields remain unset. -/
theorem connect_capability_outcome (self : WalletConnection) (w : Wallet)
    (t : PromiseTable) (freshOp : Nat) (outcome : Outcome)
    (hnc : self.connecting = false)
    (habsent : lookupTable t w.id = none)
    (hcap : w.hasConnect = true)
    (hw : self.wallet = none) (ha : self.account = none)
    (hco : self.connected = false) :
    (WalletConnection.connect self w t freshOp outcome).invocations = 1 ∧
    (∀ accounts, outcome = .ok accounts →
      (WalletConnection.connect self w t freshOp outcome).state =
        { wallet := some w, account := accounts.head?, connecting := false,
          connected := true, error := none }) ∧
    (∀ e, outcome = .err e →
      (WalletConnection.connect self w t freshOp outcome).state =
        { wallet := none, account := none, connecting := false,
          connected := false, error := some e }) := by
  obtain ⟨sw, sa, sc, sco, se⟩ := self
  simp only at hnc hw ha hco
  subst hnc hw ha hco
  refine ⟨?_, ?_, ?_⟩
  · cases outcome <;>
      simp [WalletConnection.connect, connectPrefix, habsent, hcap,
        connectResume]
  · rintro accounts rfl
    simp [WalletConnection.connect, connectPrefix, habsent, hcap, connectResume]
  · rintro e rfl
    simp [WalletConnection.connect, connectPrefix, habsent, hcap, connectResume]

/-- C3 witness: a successful connect to `acme` from the initial state. -/
theorem connect_capability_outcome_witness :
    (WalletConnection.connect WalletConnection.init acme [] 0
        (.ok [acct])).invocations = 1 ∧
    (∀ accounts, Outcome.ok [acct] = .ok accounts →
      (WalletConnection.connect WalletConnection.init acme [] 0
          (.ok [acct])).state =
        { wallet := some acme, account := accounts.head?, connecting := false,
          connected := true, error := none }) ∧
    (∀ e, Outcome.ok [acct] = .err e →
      (WalletConnection.connect WalletConnection.init acme [] 0
          (.ok [acct])).state =
        { wallet := none, account := none, connecting := false,
          connected := false, error := some e }) :=
  connect_capability_outcome WalletConnection.init acme [] 0 (.ok [acct])
    (by decide) (by decide) (by decide) (by decide) (by decide) (by decide)

/-- C4: `connect()` on a wallet whose `features` lacks the connect capability,
from Idle with no in-flight entry, performs no capability invocation and ends
in Idle: `error = none`, `connected = false`, `connecting = false`, with the
table untouched and the returned promise resolving. -/
theorem connect_without_capability (self : WalletConnection) (w : Wallet)
    (t : PromiseTable) (freshOp : Nat) (outcome : Outcome)
    (hnc : self.connecting = false)
    (habsent : lookupTable t w.id = none)
    (hcap : w.hasConnect = false)
    (hw : self.wallet = none) (ha : self.account = none)
    (hco : self.connected = false) :
    WalletConnection.connect self w t freshOp outcome =
      ⟨{ wallet := none, account := none, connecting := false,
         connected := false, error := none }, t, 0, none⟩ := by
  obtain ⟨sw, sa, sc, sco, se⟩ := self
  simp only at hnc hw ha hco
  subst hnc hw ha hco
  simp [WalletConnection.connect, connectPrefix, habsent, hcap]

/-- C4 witness: connecting to a wallet with an empty `features` mapping. -/
theorem connect_without_capability_witness :
    WalletConnection.connect WalletConnection.init basicWallet [] 0
        (.ok [acct]) =
      ⟨{ wallet := none, account := none, connecting := false,
         connected := false, error := none }, [], 0, none⟩ :=
  connect_without_capability WalletConnection.init basicWallet [] 0 (.ok [acct])
    (by decide) (by decide) (by decide) (by decide) (by decide) (by decide)

/-- C1 counterexample: on a controller connected to `acme`, `disconnect()`
whose capability invocation rejects leaves `wallet` and `account` non-null
and `connected` still `true` — the clearing assignments sit inside the `try`
after the awaited call, so the rejection jumps to `catch` before they run.
Only `error` is set to the rejection cause. -/
theorem disconnect_reject_leaves_state :
    (WalletConnection.disconnect connectedToAcme
        (some "remote teardown failed")).state.wallet = some acme ∧
    (WalletConnection.disconnect connectedToAcme
        (some "remote teardown failed")).state.account = some acct ∧
    (WalletConnection.disconnect connectedToAcme
        (some "remote teardown failed")).state.connected = true ∧
    (WalletConnection.disconnect connectedToAcme
        (some "remote teardown failed")).state.error =
      some "remote teardown failed" := by
  decide

/-- C1 amended: on a connected controller whose wallet declares the
disconnect capability, a rejecting `disconnect()` sets `error` to the
rejection cause while `wallet`, `account` and `connected` keep their prior
values (and the returned promise resolves); the local fields are cleared —
to null/false with `error = none` — only when the capability invocation
resolves. -/
theorem disconnect_reject_keeps_local_state (self : WalletConnection)
    (w : Wallet) (e : ErrVal)
    (hw : self.wallet = some w) (hcap : w.hasDisconnect = true) :
    (WalletConnection.disconnect self (some e)).state =
      { self with error := some e } ∧
    (WalletConnection.disconnect self (some e)).thrown = none ∧
    (WalletConnection.disconnect self none).state =
      { self with wallet := none, account := none, connected := false,
                  error := none } := by
  simp [WalletConnection.disconnect, disconnectTry, hw, hcap]

/-- C1 witness: the amended behaviour at the concrete connected state. -/
theorem disconnect_reject_keeps_local_state_witness :
    (WalletConnection.disconnect connectedToAcme (some "boom")).state =
      { connectedToAcme with error := some "boom" } ∧
    (WalletConnection.disconnect connectedToAcme (some "boom")).thrown = none ∧
    (WalletConnection.disconnect connectedToAcme none).state =
      { connectedToAcme with wallet := none, account := none,
                             connected := false, error := none } :=
  disconnect_reject_keeps_local_state connectedToAcme acme "boom" (by decide)
    (by decide)

/-- C6 counterexample: when the connect capability's promise rejects, the
promise returned by `WalletConnection.connect` nevertheless resolves
(`thrown = none`) — the `catch` block stores the cause without re-throwing —
so the failure does not surface to the immediate caller as a rejection of the
operation itself. -/
theorem connect_failure_resolves :
    (WalletConnection.connect WalletConnection.init acme [] 0
        (.err "Connection failed")).thrown = none ∧
    (WalletConnection.connect WalletConnection.init acme [] 0
        (.err "Connection failed")).state.error = some "Connection failed" := by
  decide

/-- C6 amended: a rejected capability invocation always stores the cause in
the controller's `error` field; `UiWalletConnect.connect` additionally
re-throws, so its returned promise rejects with the same cause, whereas
`WalletConnection.connect` and `WalletConnection.disconnect` catch the cause
and their returned promises resolve; the no-capability `connect` ends with
`error = none` and no rejection. -/
theorem failure_propagation (sc sd s0 : WalletConnection) (w wd w0 : Wallet)
    (t t0 : PromiseTable) (freshOp op0 : Nat) (e : ErrVal)
    (u : UiWalletConnect) (outcome : Outcome)
    (hnc : sc.connecting = false) (habsent : lookupTable t w.id = none)
    (hcap : w.hasConnect = true)
    (hwd : sd.wallet = some wd) (hdcap : wd.hasDisconnect = true)
    (hnc0 : s0.connecting = false) (habsent0 : lookupTable t0 w0.id = none)
    (hcap0 : w0.hasConnect = false) :
    ((WalletConnection.connect sc w t freshOp (.err e)).state.error = some e ∧
     (WalletConnection.connect sc w t freshOp (.err e)).thrown = none) ∧
    ((WalletConnection.disconnect sd (some e)).state.error = some e ∧
     (WalletConnection.disconnect sd (some e)).thrown = none) ∧
    ((u.settle (.err e)).2 = .error e ∧ (u.settle (.err e)).1.error = some e) ∧
    ((WalletConnection.connect s0 w0 t0 op0 outcome).state.error = none ∧
     (WalletConnection.connect s0 w0 t0 op0 outcome).thrown = none) := by
  refine ⟨?_, ?_, ?_, ?_⟩
  · constructor <;>
      simp [WalletConnection.connect, connectPrefix, hnc, habsent, hcap,
        connectResume]
  · constructor <;> simp [WalletConnection.disconnect, disconnectTry, hwd, hdcap]
  · constructor <;> simp [UiWalletConnect.settle]
  · constructor <;>
      simp [WalletConnection.connect, connectPrefix, hnc0, habsent0, hcap0]

/-- C6 witness: the amended propagation behaviour at concrete inputs. -/
theorem failure_propagation_witness :
    ((WalletConnection.connect WalletConnection.init acme [] 0
          (.err "boom")).state.error = some "boom" ∧
     (WalletConnection.connect WalletConnection.init acme [] 0
          (.err "boom")).thrown = none) ∧
    ((WalletConnection.disconnect connectedToAcme (some "boom")).state.error =
        some "boom" ∧
     (WalletConnection.disconnect connectedToAcme (some "boom")).thrown =
        none) ∧
    (((UiWalletConnect.new ⟨9, "Acme", []⟩).settle (.err "boom")).2 =
        .error "boom" ∧
     ((UiWalletConnect.new ⟨9, "Acme", []⟩).settle (.err "boom")).1.error =
        some "boom") ∧
    ((WalletConnection.connect WalletConnection.init basicWallet [] 0
          (.ok [acct])).state.error = none ∧
     (WalletConnection.connect WalletConnection.init basicWallet [] 0
          (.ok [acct])).thrown = none) :=
  failure_propagation WalletConnection.init connectedToAcme
    WalletConnection.init acme acme basicWallet [] [] 0 0 "boom"
    (UiWalletConnect.new ⟨9, "Acme", []⟩) (.ok [acct]) (by decide) (by decide)
    (by decide) (by decide) (by decide) (by decide) (by decide) (by decide)

/-- C10: every `WalletConnection` operation — `connect` on any wallet with any
table, fresh-operation id and settlement outcome (covering success, failure,
adoption of an in-flight promise, the missing-capability case and the
early-return while connecting), and `disconnect` with any outcome — preserves
the invariant that `connected` holds exactly when `wallet` is non-null and
that `account` is non-null only when `wallet` is. -/
theorem connInv_preserved (s : WalletConnection) (w : Wallet)
    (t : PromiseTable) (freshOp : Nat) (outcome : Outcome)
    (failure : Option ErrVal) (h : ConnInv s) :
    ConnInv (WalletConnection.connect s w t freshOp outcome).state ∧
    ConnInv (WalletConnection.disconnect s failure).state := by
  obtain ⟨sw, sa, sc, sco, se⟩ := s
  obtain ⟨hiff, hacc⟩ := h
  simp only at hiff hacc
  constructor
  · simp only [WalletConnection.connect, connectPrefix]
    cases sc with
    | true => exact ⟨hiff, hacc⟩
    | false =>
        simp only [Bool.false_eq_true, if_false]
        cases hl : lookupTable t w.id with
        | some op =>
            cases outcome with
            | ok accounts => simp [connectResume, ConnInv]
            | err e => exact ⟨hiff, hacc⟩
        | none =>
            cases hc : w.hasConnect with
            | true =>
                cases outcome with
                | ok accounts => simp [connectResume, ConnInv]
                | err e => exact ⟨hiff, hacc⟩
            | false => exact ⟨hiff, hacc⟩
  · simp only [WalletConnection.disconnect]
    cases sw with
    | none => exact ⟨hiff, hacc⟩
    | some w' =>
        simp only [disconnectTry]
        cases hd : w'.hasDisconnect with
        | true =>
            cases failure with
            | some e => exact ⟨hiff, hacc⟩
            | none => simp [ConnInv]
        | false => simp [ConnInv]

/-- C10 witness: preservation at a concrete state and operation. -/
theorem connInv_preserved_witness :
    ConnInv (WalletConnection.connect WalletConnection.init acme [] 0
        (.ok [acct])).state ∧
    ConnInv (WalletConnection.disconnect WalletConnection.init none).state :=
  connInv_preserved WalletConnection.init acme [] 0 (.ok [acct]) none
    (by decide)

/-- C5: when no provider in the registry's current snapshot has the name of
the held Public Handle (resolution is by name, not object identity),
`UiWalletConnect.connect` rejects with the "not found in global registry"
error, records that error in the controller's `error` field, and leaves
`connecting = false`. -/
theorem uiConnect_provider_not_found (self : UiWalletConnect)
    (snapshot : List Wallet) (freshOp : Nat)
    (hpending : self.connectionPromise = none)
    (hnomatch : ∀ w ∈ snapshot, w.name ≠ self.uiWallet.name) :
    (self.connectStart snapshot freshOp).2 =
      .rejected (notFoundMsg self.uiWallet.name) ∧
    (self.connectStart snapshot freshOp).1.error =
      some (notFoundMsg self.uiWallet.name) ∧
    (self.connectStart snapshot freshOp).1.connecting = false := by
  have hfind : snapshot.find? (fun w => w.name == self.uiWallet.name) = none := by
    rw [List.find?_eq_none]
    intro w hmem
    simpa using hnomatch w hmem
  simp [UiWalletConnect.connectStart, hpending, hfind]

/-- C5 witness: the "Acme" handle used after the registry has dropped every
provider of that name. -/
theorem uiConnect_provider_not_found_witness :
    ((UiWalletConnect.new ⟨9, "Acme", []⟩).connectStart [basicWallet] 0).2 =
      .rejected (notFoundMsg "Acme") ∧
    ((UiWalletConnect.new ⟨9, "Acme", []⟩).connectStart
        [basicWallet] 0).1.error = some (notFoundMsg "Acme") ∧
    ((UiWalletConnect.new ⟨9, "Acme", []⟩).connectStart
        [basicWallet] 0).1.connecting = false :=
  uiConnect_provider_not_found (UiWalletConnect.new ⟨9, "Acme", []⟩)
    [basicWallet] 0 (by decide) (by decide)

end WalletStandardSvelte
